import Mathlib

/-!
Verification development for the agent-communication broker
(`src/mcp_servers/mcp_server.py`), the agent-side client
(`src/utils/mcp_client.py`) and the coordinator phase machine
(`src/orchestration/coordinator.py`).

The Python code is shallowly embedded: dictionaries become association
lists (`List (String × _)`, insertion-ordered like Python dicts),
timestamps become natural numbers (seconds), websocket handles become
numeric tokens, and each `async` handler becomes a pure function from its
inputs and the relevant mutable state to the successor state together
with the list of outbound sends it performs.
-/

/-- The `AgentMessage` dataclass of `agents/base_agent.py`, which is the
message type the broker constructs and routes (`_process_message`,
`_send_error_response`).  `content` (a JSON object) is modelled as an
association list of string fields. -/
structure AgentMessage where
  id : String
  sender_id : String
  receiver_id : String
  message_type : String
  content : List (String × String)
  timestamp : Nat
  priority : String
  requires_response : Bool
  deriving DecidableEq, Repr

/-- The `ConnectedAgent` record of `mcp_servers/mcp_server.py`: the
broker-side handle of one live agent connection.  `websocket` is an
abstract token naming the underlying channel. -/
structure ConnectedAgent where
  agent_id : String
  websocket : Nat
  connected_at : Nat
  last_ping : Nat
  message_count : Nat
  agent_type : String
  deriving DecidableEq, Repr

/-- `ConnectedAgent.__init__`: `connected_at` and `last_ping` are set to
`datetime.now()`, `message_count` to 0 and `agent_type` to `"unknown"`. -/
def ConnectedAgent.init (agent_id : String) (websocket : Nat) (now : Nat) :
    ConnectedAgent :=
  { agent_id := agent_id, websocket := websocket, connected_at := now,
    last_ping := now, message_count := 0, agent_type := "unknown" }

/-- `ConnectedAgent.update_stats`: bump the message counter and refresh
`last_ping` to the current time. -/
def ConnectedAgent.update_stats (a : ConnectedAgent) (now : Nat) : ConnectedAgent :=
  { a with message_count := a.message_count + 1, last_ping := now }

/-- The broker's connection registry `self.connected_agents`
(`agent_id → ConnectedAgent`), as an insertion-ordered association list. -/
abbrev Registry := List (String × ConnectedAgent)

/-- The error message built by `MCPServer._send_error_response`: sender
`"server"`, addressed to the offending agent, type `"error"`, and a payload
naming the error text and the original message id.  `freshId` stands for
the `uuid4` default of the dataclass `id` field. -/
def mkErrorResponse (agent : ConnectedAgent) (original : AgentMessage)
    (error : String) (freshId : String) (now : Nat) : AgentMessage :=
  { id := freshId, sender_id := "server", receiver_id := agent.agent_id,
    message_type := "error",
    content := [("error", error), ("original_message_id", original.id)],
    timestamp := now, priority := "normal", requires_response := false }

/-- `MCPServer._route_message` (with `_broadcast_message`, `_send_to_agent`
and `_send_error_response` inlined as delivery events).  The result is the
list of `(recipient handle, message)` sends the broker performs:
broadcast goes to every registered handle whose key differs from the
sender's id; a known `receiver_id` gets exactly the original message; an
unknown one sends a single error message back to the sender. -/
def routeMessage (registry : Registry) (sender : ConnectedAgent)
    (message : AgentMessage) (freshId : String) (now : Nat) :
    List (ConnectedAgent × AgentMessage) :=
  if message.receiver_id = "broadcast" then
    (registry.filter (fun p => p.1 != sender.agent_id)).map (fun p => (p.2, message))
  else
    match registry.lookup message.receiver_id with
    | some recipient => [(recipient, message)]
    | none => [(sender, mkErrorResponse sender message "Unknown recipient" freshId now)]

/-! ### Association-list helpers (Python `dict` reasoning) -/

theorem lookup_of_mem_nodup {β : Type} {l : List (String × β)} {k : String} {v : β}
    (hn : (l.map Prod.fst).Nodup) (h : (k, v) ∈ l) : l.lookup k = some v := by
  induction l with
  | nil => cases h
  | cons a t ih =>
    rcases List.mem_cons.1 h with h1 | h1
    · cases h1
      simp [List.lookup]
    · have ha : k ≠ a.1 := by
        intro hk
        have : a.1 ∈ t.map Prod.fst := List.mem_map.2 ⟨(k, v), h1, by simp [hk]⟩
        exact (List.nodup_cons.1 hn).1 this
      have hb : (k == a.1) = false := beq_false_of_ne ha
      simp only [List.lookup, hb]
      exact ih (List.nodup_cons.1 hn).2 h1

theorem lookup_none_not_mem {β : Type} {l : List (String × β)} {k : String}
    (h : l.lookup k = none) : ∀ p ∈ l, p.1 ≠ k := by
  induction l with
  | nil => intro p hp; cases hp
  | cons a t ih =>
    intro p hp
    cases hbe : (k == a.1) with
    | true =>
      simp only [List.lookup, hbe] at h
      exact Option.noConfusion h
    | false =>
      simp only [List.lookup, hbe] at h
      rcases List.mem_cons.1 hp with h1 | h1
      · subst h1
        intro he
        rw [he] at hbe
        simp at hbe
      · exact ih h p h1

/-! ### Claim C1 — unicast routing -/

/-- C1 (amended): for registered agents A and B, when B's id is not the
reserved sentinel `"broadcast"`, a message from A whose `receiver_id` is
B's id is delivered exactly once, to B only, and the delivered message is
the original one (same id, payload, type). -/
theorem unicast_exact_delivery (registry : Registry) (sender B : ConnectedAgent)
    (message : AgentMessage) (freshId : String) (now : Nat)
    (hnodup : (registry.map Prod.fst).Nodup)
    (hmem : (message.receiver_id, B) ∈ registry)
    (hnb : message.receiver_id ≠ "broadcast") :
    routeMessage registry sender message freshId now = [(B, message)] := by
  have hl := lookup_of_mem_nodup hnodup hmem
  simp [routeMessage, hnb, hl]

def agentA : ConnectedAgent := ConnectedAgent.init "a1" 1 0

def agentNamedBroadcast : ConnectedAgent := ConnectedAgent.init "broadcast" 2 0

def agentC : ConnectedAgent := ConnectedAgent.init "c1" 3 0

/-- Registry in which an agent registered under the id `"broadcast"`
(nothing in `_handle_connection` forbids that path). -/
def cexRegistry : Registry :=
  [("a1", agentA), ("broadcast", agentNamedBroadcast), ("c1", agentC)]

def cexMessage : AgentMessage :=
  { id := "m1", sender_id := "a1", receiver_id := "broadcast",
    message_type := "status", content := [("k", "v")], timestamp := 0,
    priority := "normal", requires_response := false }

/-- C1 counterexample: with a registered agent B whose id is literally
`"broadcast"`, a message from A with `receiver_id = B.agent_id` is also
delivered to the third agent C ≠ B, so the broker does not deliver it "to
no other agent" as the claim states. -/
theorem unicast_exact_delivery_cex :
    ("broadcast", agentNamedBroadcast) ∈ cexRegistry ∧
    cexMessage.receiver_id = agentNamedBroadcast.agent_id ∧
    (agentC, cexMessage) ∈ routeMessage cexRegistry agentA cexMessage "e1" 5 ∧
    agentC ≠ agentNamedBroadcast := by decide

def regW : Registry :=
  [("a1", ConnectedAgent.init "a1" 1 0), ("b1", ConnectedAgent.init "b1" 2 0),
   ("c1", ConnectedAgent.init "c1" 3 0)]

def wMsg : AgentMessage :=
  { id := "m2", sender_id := "a1", receiver_id := "b1",
    message_type := "command", content := [("task", "scan")], timestamp := 1,
    priority := "high", requires_response := true }

theorem unicast_exact_delivery_witness :
    ((regW.map Prod.fst).Nodup ∧ (wMsg.receiver_id, ConnectedAgent.init "b1" 2 0) ∈ regW ∧
      wMsg.receiver_id ≠ "broadcast") ∧
    routeMessage regW (ConnectedAgent.init "a1" 1 0) wMsg "e9" 4 =
      [(ConnectedAgent.init "b1" 2 0, wMsg)] :=
  ⟨⟨by decide, by decide, by decide⟩,
    unicast_exact_delivery regW (ConnectedAgent.init "a1" 1 0)
      (ConnectedAgent.init "b1" 2 0) wMsg "e9" 4 (by decide) (by decide) (by decide)⟩

/-! ### Claim C2 — broadcast exclusivity -/

/-- C2: a message with `receiver_id = "broadcast"` from a registered agent
A is delivered unchanged to every registered handle whose id differs from
A's, exactly once each (recipient ids are pairwise distinct), and every
delivery target differs from A — A never receives its own broadcast.
`hwf` states the broker's registry shape: each handle is keyed by its own
agent id, which is how `_handle_connection` inserts them. -/
theorem broadcast_exclusive (registry : Registry) (sender : ConnectedAgent)
    (message : AgentMessage) (freshId : String) (now : Nat)
    (hb : message.receiver_id = "broadcast")
    (hnodup : (registry.map Prod.fst).Nodup)
    (hwf : ∀ p ∈ registry, p.2.agent_id = p.1) :
    (∀ p ∈ registry, p.1 ≠ sender.agent_id →
      (p.2, message) ∈ routeMessage registry sender message freshId now) ∧
    (∀ d ∈ routeMessage registry sender message freshId now,
      d.1.agent_id ≠ sender.agent_id ∧ d.2 = message) ∧
    ((routeMessage registry sender message freshId now).map
      (fun d => d.1.agent_id)).Nodup := by
  have hroute : routeMessage registry sender message freshId now =
      (registry.filter (fun p => p.1 != sender.agent_id)).map (fun p => (p.2, message)) := by
    simp [routeMessage, hb]
  rw [hroute]
  refine ⟨?_, ?_, ?_⟩
  · intro p hp hne
    exact List.mem_map.2 ⟨p, List.mem_filter.2 ⟨hp, by simp [hne]⟩, rfl⟩
  · intro d hd
    obtain ⟨p, hpf, heq⟩ := List.mem_map.1 hd
    obtain ⟨hpr, hpne⟩ := List.mem_filter.1 hpf
    subst heq
    refine ⟨?_, rfl⟩
    rw [hwf p hpr]
    simpa using hpne
  · have h1 : ((registry.filter (fun p => p.1 != sender.agent_id)).map
        (fun p => (p.2, message))).map (fun d => d.1.agent_id) =
        (registry.filter (fun p => p.1 != sender.agent_id)).map
          (fun p => p.2.agent_id) := by
      simp [List.map_map, Function.comp]
    have h2 : (registry.filter (fun p => p.1 != sender.agent_id)).map
        (fun p => p.2.agent_id) =
        (registry.filter (fun p => p.1 != sender.agent_id)).map Prod.fst :=
      List.map_congr_left (fun p hp => hwf p (List.mem_of_mem_filter hp))
    rw [h1, h2]
    exact hnodup.sublist ((registry.filter_sublist).map Prod.fst)

def wBroadcastMsg : AgentMessage :=
  { id := "m3", sender_id := "a1", receiver_id := "broadcast",
    message_type := "alert", content := [("severity", "high")], timestamp := 2,
    priority := "critical", requires_response := false }

theorem broadcast_exclusive_witness :
    (wBroadcastMsg.receiver_id = "broadcast" ∧ (regW.map Prod.fst).Nodup ∧
      ∀ p ∈ regW, p.2.agent_id = p.1) ∧
    ((∀ p ∈ regW, p.1 ≠ "a1" →
      (p.2, wBroadcastMsg) ∈ routeMessage regW (ConnectedAgent.init "a1" 1 0) wBroadcastMsg "e2" 6) ∧
    (∀ d ∈ routeMessage regW (ConnectedAgent.init "a1" 1 0) wBroadcastMsg "e2" 6,
      d.1.agent_id ≠ "a1" ∧ d.2 = wBroadcastMsg) ∧
    ((routeMessage regW (ConnectedAgent.init "a1" 1 0) wBroadcastMsg "e2" 6).map
      (fun d => d.1.agent_id)).Nodup) :=
  ⟨⟨rfl, by decide, by decide⟩,
    broadcast_exclusive regW (ConnectedAgent.init "a1" 1 0) wBroadcastMsg "e2" 6
      rfl (by decide) (by decide)⟩

/-! ### Claim C7 — unknown-recipient error -/

/-- C7: a message whose `receiver_id` is neither `"broadcast"` nor a
registered id produces exactly one send: an `error`-typed message back to
the sender whose payload carries the original message id; no other agent
receives anything. -/
theorem unknown_recipient_error (registry : Registry) (sender : ConnectedAgent)
    (message : AgentMessage) (freshId : String) (now : Nat)
    (hnb : message.receiver_id ≠ "broadcast")
    (hunk : registry.lookup message.receiver_id = none) :
    routeMessage registry sender message freshId now =
      [(sender, mkErrorResponse sender message "Unknown recipient" freshId now)] ∧
    (mkErrorResponse sender message "Unknown recipient" freshId now).message_type = "error" ∧
    (mkErrorResponse sender message "Unknown recipient" freshId now).receiver_id =
      sender.agent_id ∧
    ("original_message_id", message.id) ∈
      (mkErrorResponse sender message "Unknown recipient" freshId now).content := by
  refine ⟨by simp [routeMessage, hnb, hunk], rfl, rfl, by simp [mkErrorResponse]⟩

def wUnknownMsg : AgentMessage :=
  { id := "m4", sender_id := "a1", receiver_id := "ghost",
    message_type := "command", content := [], timestamp := 3,
    priority := "normal", requires_response := true }

theorem unknown_recipient_error_witness :
    (wUnknownMsg.receiver_id ≠ "broadcast" ∧ regW.lookup wUnknownMsg.receiver_id = none) ∧
    (routeMessage regW (ConnectedAgent.init "a1" 1 0) wUnknownMsg "e3" 7 =
      [(ConnectedAgent.init "a1" 1 0,
        mkErrorResponse (ConnectedAgent.init "a1" 1 0) wUnknownMsg "Unknown recipient" "e3" 7)] ∧
    (mkErrorResponse (ConnectedAgent.init "a1" 1 0) wUnknownMsg "Unknown recipient" "e3" 7).message_type = "error" ∧
    (mkErrorResponse (ConnectedAgent.init "a1" 1 0) wUnknownMsg "Unknown recipient" "e3" 7).receiver_id = "a1" ∧
    ("original_message_id", wUnknownMsg.id) ∈
      (mkErrorResponse (ConnectedAgent.init "a1" 1 0) wUnknownMsg "Unknown recipient" "e3" 7).content) :=
  ⟨⟨by decide, by decide⟩,
    unknown_recipient_error regW (ConnectedAgent.init "a1" 1 0) wUnknownMsg "e3" 7
      (by decide) (by decide)⟩

/-! ### Connection accept path (`MCPServer._handle_connection`) -/

/-- Python `str.split("/")` on a character list, accumulator-style. -/
def splitOnSlash : List Char → List Char → List String
  | [], acc => [String.mk acc.reverse]
  | c :: cs, acc =>
    if c = '/' then String.mk acc.reverse :: splitOnSlash cs []
    else splitOnSlash cs (c :: acc)

/-- Python `str.strip("/")`: drop leading and trailing slash characters. -/
def stripSlashes (l : List Char) : List Char :=
  ((l.dropWhile (fun c => c == '/')).reverse.dropWhile (fun c => c == '/')).reverse

/-- `path.strip("/").split("/")` from `_handle_connection`. -/
def pathParts (path : String) : List String :=
  splitOnSlash (stripSlashes path.data) []

/-- Outcome of `MCPServer._handle_connection` up to the point where the
accepted agent enters its receive loop: the updated registry and
connection counter, the websocket tokens of handles the broker closed
(the taken-over old handle, if any), and the close code sent to the *new*
connection when it is refused (1003 invalid path, 1013 capacity). -/
structure ConnResult where
  registry : Registry
  total_connections : Nat
  closed : List Nat
  refusalCode : Option Nat
  deriving DecidableEq, Repr

/-- `MCPServer._handle_connection`: parse the agent id out of the path;
on a malformed path close with 1003; if the id is already registered pop
and close the old handle first; then refuse with 1013 if the registry is
at `max_connections`, otherwise insert a fresh `ConnectedAgent`. -/
def handleConnection (registry : Registry) (total_connections max_connections : Nat)
    (path : String) (ws : Nat) (now : Nat) : ConnResult :=
  match pathParts path with
  | p0 :: p1 :: _ =>
    if p0 = "ws" then
      let registry1 := match registry.lookup p1 with
        | some _ => registry.eraseP (fun q => q.1 == p1)
        | none => registry
      let closedOld := match registry.lookup p1 with
        | some old => [old.websocket]
        | none => []
      if registry1.length ≥ max_connections then
        { registry := registry1, total_connections := total_connections,
          closed := closedOld, refusalCode := some 1013 }
      else
        { registry := registry1 ++ [(p1, ConnectedAgent.init p1 ws now)],
          total_connections := total_connections + 1,
          closed := closedOld, refusalCode := none }
    else
      { registry := registry, total_connections := total_connections,
        closed := [], refusalCode := some 1003 }
  | _ =>
      { registry := registry, total_connections := total_connections,
        closed := [], refusalCode := some 1003 }

theorem lookup_some_mem {β : Type} {l : List (String × β)} {k : String} {v : β}
    (h : l.lookup k = some v) : (k, v) ∈ l := by
  induction l with
  | nil => simp [List.lookup] at h
  | cons a t ih =>
    cases hbe : (k == a.1) with
    | true =>
      simp only [List.lookup, hbe] at h
      have hk : k = a.1 := eq_of_beq hbe
      have : a = (k, v) := by
        cases a
        cases h
        simp [hk]
      rw [← this]
      exact List.mem_cons_self a t
    | false =>
      simp only [List.lookup, hbe] at h
      exact List.mem_cons_of_mem a (ih h)

theorem nodup_eraseP_key {β : Type} {l : List (String × β)} {k : String}
    (hn : (l.map Prod.fst).Nodup) :
    ∀ q ∈ l.eraseP (fun q => q.1 == k), q.1 ≠ k := by
  induction l with
  | nil => intro q hq; cases hq
  | cons a t ih =>
    intro q hq
    cases hbe : (a.1 == k) with
    | true =>
      rw [List.eraseP_cons, hbe] at hq
      intro hqk
      have hak : a.1 = k := eq_of_beq hbe
      have : a.1 ∈ t.map Prod.fst :=
        List.mem_map.2 ⟨q, by simpa using hq, by rw [hqk, hak]⟩
      exact (List.nodup_cons.1 hn).1 this
    | false =>
      rw [List.eraseP_cons, hbe] at hq
      rcases List.mem_cons.1 (by simpa using hq) with h1 | h1
      · subst h1
        intro hqk
        rw [hqk] at hbe
        simp at hbe
      · exact ih (List.nodup_cons.1 hn).2 q h1

theorem lookup_eq_none_of_keys {β : Type} {l : List (String × β)} {k : String}
    (h : ∀ q ∈ l, q.1 ≠ k) : l.lookup k = none := by
  induction l with
  | nil => rfl
  | cons a t ih =>
    have ha : a.1 ≠ k := h a (List.mem_cons_self a t)
    have hbe : (k == a.1) = false := beq_false_of_ne (fun hk => ha hk.symm)
    simp only [List.lookup, hbe]
    exact ih (fun q hq => h q (List.mem_cons_of_mem a hq))

theorem lookup_append_left_none {β : Type} {l1 l2 : List (String × β)} {k : String}
    (h : l1.lookup k = none) : (l1 ++ l2).lookup k = l2.lookup k := by
  induction l1 with
  | nil => rfl
  | cons a t ih =>
    cases hbe : (k == a.1) with
    | true =>
      simp only [List.lookup, hbe] at h
      exact Option.noConfusion h
    | false =>
      simp only [List.lookup, hbe] at h
      simp only [List.cons_append, List.lookup, hbe]
      exact ih h

/-! ### Claim C5 — identity takeover -/

/-- C5: a registration for an already-registered id X (on a reachable
registry: unique keys, size within `max_connections`) is accepted, closes
exactly the prior handle, and leaves exactly one live handle for X — the
freshly inserted one. -/
theorem identity_takeover (registry : Registry) (tc maxc : Nat) (path : String)
    (ws now : Nat) (X : String) (old : ConnectedAgent)
    (hpath : pathParts path = ["ws", X])
    (hX : registry.lookup X = some old)
    (hnodup : (registry.map Prod.fst).Nodup)
    (hcap : registry.length ≤ maxc) :
    (handleConnection registry tc maxc path ws now).refusalCode = none ∧
    (handleConnection registry tc maxc path ws now).closed = [old.websocket] ∧
    ((handleConnection registry tc maxc path ws now).registry.filter
      (fun q => q.1 == X)).length = 1 ∧
    (handleConnection registry tc maxc path ws now).registry.lookup X =
      some (ConnectedAgent.init X ws now) := by
  have hmem : (X, old) ∈ registry := lookup_some_mem hX
  have hlen : (registry.eraseP (fun q => q.1 == X)).length = registry.length - 1 :=
    List.length_eraseP_of_mem hmem (by simp)
  have hpos : 0 < registry.length := List.length_pos_of_mem hmem
  have hlt : (registry.eraseP (fun q => q.1 == X)).length < maxc := by
    rw [hlen]; omega
  have hkeys : ∀ q ∈ registry.eraseP (fun q => q.1 == X), q.1 ≠ X :=
    nodup_eraseP_key hnodup
  have hnone : (registry.eraseP (fun q => q.1 == X)).lookup X = none :=
    lookup_eq_none_of_keys hkeys
  have hres : handleConnection registry tc maxc path ws now =
      { registry := registry.eraseP (fun q => q.1 == X) ++
          [(X, ConnectedAgent.init X ws now)],
        total_connections := tc + 1,
        closed := [old.websocket], refusalCode := none } := by
    simp only [handleConnection, hpath, hX]
    rw [if_pos trivial, if_neg (not_le.mpr hlt)]
  rw [hres]
  refine ⟨rfl, rfl, ?_, ?_⟩
  · rw [List.filter_append]
    have h1 : (registry.eraseP (fun q => q.1 == X)).filter (fun q => q.1 == X) = [] := by
      rw [List.filter_eq_nil_iff]
      intro q hq
      simpa using hkeys q hq
    rw [h1]
    simp
  · rw [lookup_append_left_none hnone]
    simp [List.lookup]

theorem identity_takeover_witness :
    (pathParts "/ws/b1" = ["ws", "b1"] ∧
      regW.lookup "b1" = some (ConnectedAgent.init "b1" 2 0) ∧
      (regW.map Prod.fst).Nodup ∧ regW.length ≤ 5) ∧
    ((handleConnection regW 3 5 "/ws/b1" 9 8).refusalCode = none ∧
    (handleConnection regW 3 5 "/ws/b1" 9 8).closed = [2] ∧
    ((handleConnection regW 3 5 "/ws/b1" 9 8).registry.filter
      (fun q => q.1 == "b1")).length = 1 ∧
    (handleConnection regW 3 5 "/ws/b1" 9 8).registry.lookup "b1" =
      some (ConnectedAgent.init "b1" 9 8)) :=
  ⟨⟨by decide, by decide, by decide, by decide⟩, by
    have h := identity_takeover regW 3 5 "/ws/b1" 9 8 "b1"
      (ConnectedAgent.init "b1" 2 0) (by decide) (by decide) (by decide) (by decide)
    simpa using h⟩

/-! ### Claim C6 — capacity bound -/

/-- C6 (amended): the registry size never exceeds `max_connections`, and
an accept attempt for an id that is *not* already registered, while the
registry is at the bound, is refused with the capacity close code 1013,
evicting and closing nothing.  (An accept for an already-registered id is
instead treated as identity takeover and is not refused.) -/
theorem capacity_bound (registry : Registry) (tc maxc : Nat) (path : String)
    (ws now : Nat) (hcap : registry.length ≤ maxc) :
    (handleConnection registry tc maxc path ws now).registry.length ≤ maxc ∧
    (∀ X, pathParts path = ["ws", X] → registry.lookup X = none →
      registry.length = maxc →
      (handleConnection registry tc maxc path ws now).refusalCode = some 1013 ∧
      (handleConnection registry tc maxc path ws now).registry = registry ∧
      (handleConnection registry tc maxc path ws now).closed = []) := by
  constructor
  · unfold handleConnection
    split
    · split
      · cases hl : List.lookup _ registry with
        | some old =>
          simp only
          split
          · next h =>
            simpa using le_trans (List.length_eraseP_le _) hcap
          · next h =>
            have hlt : (registry.eraseP _).length < maxc := lt_of_not_le h
            simpa using hlt
        | none =>
          simp only
          split
          · next h => simpa using hcap
          · next h =>
            have hlt : registry.length < maxc := lt_of_not_le h
            simpa using hlt
      · simpa using hcap
    · simpa using hcap
  · intro X hpath hnone hfull
    have hge : registry.length ≥ maxc := le_of_eq hfull.symm
    simp only [handleConnection, hpath, hnone]
    rw [if_pos trivial, if_pos hge]
    exact ⟨rfl, rfl, rfl⟩

def c6Agent : ConnectedAgent := ConnectedAgent.init "x1" 4 0

/-- C6 counterexample: with `max_connections = 1` and the registry at the
bound holding agent `"x1"`, a new accept for the *same* id `"x1"` is not
refused — the prior handle is closed (evicted) and the new connection is
registered in its place, contradicting the claim that any accept attempt
at the bound is refused with no entry evicted. -/
theorem capacity_bound_cex :
    [("x1", c6Agent)].length = 1 ∧
    (handleConnection [("x1", c6Agent)] 1 1 "/ws/x1" 7 5).refusalCode = none ∧
    (handleConnection [("x1", c6Agent)] 1 1 "/ws/x1" 7 5).closed = [4] ∧
    (handleConnection [("x1", c6Agent)] 1 1 "/ws/x1" 7 5).registry =
      [("x1", ConnectedAgent.init "x1" 7 5)] := by decide

theorem capacity_bound_witness :
    regW.length ≤ 3 ∧
    ((handleConnection regW 3 3 "/ws/zz" 9 8).registry.length ≤ 3 ∧
     (∀ X, pathParts "/ws/zz" = ["ws", X] → regW.lookup X = none →
       regW.length = 3 →
       (handleConnection regW 3 3 "/ws/zz" 9 8).refusalCode = some 1013 ∧
       (handleConnection regW 3 3 "/ws/zz" 9 8).registry = regW ∧
       (handleConnection regW 3 3 "/ws/zz" 9 8).closed = [])) :=
  ⟨by decide, capacity_bound regW 3 3 "/ws/zz" 9 8 (by decide)⟩

/-! ### Claim C9 — staleness eviction (`MCPServer._connection_monitor`) -/

/-- Python's `timedelta.seconds` attribute: the seconds *component* of the
normalized timedelta, i.e. the whole-second age modulo one day — not the
total elapsed seconds. -/
def tdSeconds (delta : Nat) : Nat := delta % 86400

/-- One iteration of `_connection_monitor`'s sweep body: collect the
agents whose `(current_time - last_ping).seconds` exceeds 120, then close
each one's websocket and pop it from the registry.  Returns the remaining
registry and the closed websocket tokens. -/
def connectionSweep (registry : Registry) (now : Nat) : Registry × List Nat :=
  let stale := (registry.filter
    (fun p => decide (120 < tdSeconds (now - p.2.last_ping)))).map Prod.snd
  (stale.foldl (fun r a => r.eraseP (fun q => q.1 == a.agent_id)) registry,
   stale.map (fun a => a.websocket))

def c9Agent : ConnectedAgent := ConnectedAgent.init "a1" 3 0

/-- C9 failing input: an agent idle for exactly one day (86400 s — far
beyond the 120 s threshold) is *kept* by the sweep, because the code
tests `timedelta.seconds` (the day-wrapped component, here 0) instead of
the total age.  For contrast, ages 150 s (evicted) and 100 s (kept) show
the sweep behaving as claimed inside the first day. -/
theorem stale_sweep_day_wraparound :
    86400 - c9Agent.last_ping > 120 ∧
    tdSeconds (86400 - c9Agent.last_ping) = 0 ∧
    connectionSweep [("a1", c9Agent)] 86400 = ([("a1", c9Agent)], []) ∧
    connectionSweep [("a1", c9Agent)] 150 = ([], [3]) ∧
    connectionSweep [("a1", c9Agent)] 100 = ([("a1", c9Agent)], []) ∧
    (c9Agent.update_stats 90).last_ping = 90 := by decide

/-! ### Client-side embedding (`utils/mcp_client.py`) -/

/-- The keyword parameters accepted by the *local* `AgentMessage.__init__`
defined at the top of `utils/mcp_client.py` (it shadows the richer
dataclass of `agents/base_agent.py`). -/
def localAgentMessageParams : List String :=
  ["sender_id", "receiver_id", "message_type", "content"]

/-- The keyword arguments `MCPClient._handle_received_message` passes when
it constructs its local `AgentMessage` from an inbound frame. -/
def receiveCallKwargs : List String :=
  ["id", "sender_id", "receiver_id", "message_type", "content",
   "timestamp", "priority", "requires_response"]

/-- The keyword arguments `MCPClient.send_command` passes when it
constructs the outgoing command `AgentMessage`. -/
def sendCommandCallKwargs : List String :=
  ["sender_id", "receiver_id", "message_type", "content",
   "priority", "requires_response"]

/-- Python keyword-call semantics: the call succeeds only if every passed
keyword is an accepted parameter; otherwise `__init__` raises `TypeError`
before the object exists. -/
def kwargsAccepted (params passed : List String) : Bool :=
  passed.all (fun k => params.contains k)

/-- The local `AgentMessage` class of `utils/mcp_client.py`: four
caller-supplied fields plus `timestamp = datetime.now()` and
`message_id = uuid4()` set by the body.  There is no `id` attribute. -/
structure LocalAgentMessage where
  sender_id : String
  receiver_id : String
  message_type : String
  content : List (String × String)
  timestamp : Nat
  message_id : String
  deriving DecidableEq, Repr

/-- Reading `message.id` on the local class raises `AttributeError`: the
class stores `message_id`, and both `send_command` and the
response-correlation branch of `_handle_received_message` read `.id`. -/
def LocalAgentMessage.getAttrId (_ : LocalAgentMessage) : Except String String :=
  Except.error "AttributeError: AgentMessage object has no attribute id"

/-- Client mutable state relevant to the claims: the pending-response
table (`message_id → future` token), the registered handler table (keyed
by message type) and the receive counter. -/
structure ClientState where
  pending_responses : List (String × Nat)
  message_handlers : List String
  messages_received : Nat
  messages_sent : Nat
  deriving DecidableEq, Repr

/-- An inbound wire frame as decoded by `json.loads`; `none` in
`handleReceivedMessage` models a frame that fails JSON decoding.  Option
fields model `dict.get` defaults at the construction call site. -/
structure WireFrame where
  id : Option String
  sender_id : Option String
  receiver_id : Option String
  message_type : Option String
  content : List (String × String)
  timestamp : Option Nat
  priority : Option String
  requires_response : Option Bool
  deriving DecidableEq, Repr

/-- The `AgentMessage(...)` construction at lines 173-184 of
`mcp_client.py`: it passes `id`, `timestamp`, `priority` and
`requires_response`, none of which the local 4-parameter constructor
accepts, so the call raises `TypeError`.  (The `.ok` branch shows the
value the 4 accepted keywords would produce; it is unreachable.) -/
def constructReceivedMessage (f : WireFrame) (uuid : String) (now : Nat) :
    Except String LocalAgentMessage :=
  if kwargsAccepted localAgentMessageParams receiveCallKwargs then
    Except.ok
      { sender_id := f.sender_id.getD "",
        receiver_id := f.receiver_id.getD "",
        message_type := f.message_type.getD "command",
        content := f.content, timestamp := now, message_id := uuid }
  else
    Except.error "TypeError: __init__ got an unexpected keyword argument"

/-- Events `_handle_received_message` can produce besides state change. -/
inductive ReceiveEffect where
  | dispatched (message_type : String)
  | noHandlerWarning (message_type : String)
  | futureResolved (future : Nat)
  deriving DecidableEq, Repr

/-- `MCPClient._handle_received_message`: decode, construct the local
message, then either resolve a pending future (for `response` types) or
dispatch to the handler table.  The whole body sits in a
`try/except Exception` that logs and drops on any failure. -/
def handleReceivedMessage (st : ClientState) (frame : Option WireFrame)
    (uuid : String) (now : Nat) : ClientState × List ReceiveEffect :=
  match frame with
  | none => (st, [])
  | some f =>
    match constructReceivedMessage f uuid now with
    | Except.error _ => (st, [])
    | Except.ok m =>
      let st1 := { st with messages_received := st.messages_received + 1 }
      if m.message_type = "response" then
        match m.getAttrId with
        | Except.error _ => (st1, [])
        | Except.ok mid =>
          match st1.pending_responses.lookup mid with
          | some fut =>
            ({ st1 with pending_responses :=
                st1.pending_responses.eraseP (fun q => q.1 == mid) },
             [ReceiveEffect.futureResolved fut])
          | none =>
            if st1.message_handlers.contains m.message_type then
              (st1, [ReceiveEffect.dispatched m.message_type])
            else
              (st1, [ReceiveEffect.noHandlerWarning m.message_type])
      else
        if st1.message_handlers.contains m.message_type then
          (st1, [ReceiveEffect.dispatched m.message_type])
        else
          (st1, [ReceiveEffect.noHandlerWarning m.message_type])

/-! ### Claim C4 — inbound frames never reach handlers -/

/-- C4: for every inbound frame, `_handle_received_message` either fails
JSON decoding or fails constructing the local `AgentMessage` (the call
passes `id`, `timestamp`, `priority`, `requires_response`, which the
4-parameter constructor rejects with `TypeError`); the exception is
caught, so the client state is unchanged — no pending future is resolved,
no counter is bumped — and no handler is ever dispatched. -/
theorem received_message_never_dispatched (st : ClientState)
    (frame : Option WireFrame) (uuid : String) (now : Nat) :
    handleReceivedMessage st frame uuid now = (st, []) := by
  cases frame with
  | none => rfl
  | some f => rfl

/-! ### Claim C3 — `send_command` (send-command-and-wait) -/

/-- The `AgentMessage(...)` construction at lines 266-273 of
`mcp_client.py`: `send_command` passes `priority` and `requires_response`,
which the local 4-parameter constructor rejects with `TypeError`. -/
def constructCommandMessage (agent_id receiver_id : String)
    (command : List (String × String)) (uuid : String) (now : Nat) :
    Except String LocalAgentMessage :=
  if kwargsAccepted localAgentMessageParams sendCommandCallKwargs then
    Except.ok
      { sender_id := agent_id, receiver_id := receiver_id,
        message_type := "command", content := command,
        timestamp := now, message_id := uuid }
  else
    Except.error "TypeError: __init__ got an unexpected keyword argument"

/-- `MCPClient.send_command`: construct the command message, register a
pending future under `message.id`, send, then await the future with the
timeout (a matching response resolves it; a timeout pops the entry and
returns `none`).  `response` abstracts whether a matching response would
arrive within the timeout.  Exceptions propagate to the caller as
`Except.error`. -/
def sendCommand (st : ClientState) (receiver_id : String)
    (command : List (String × String)) (_priority : String) (_timeout : Nat)
    (agent_id uuid : String) (now : Nat)
    (response : Option LocalAgentMessage) :
    Except String (ClientState × Option LocalAgentMessage) :=
  match constructCommandMessage agent_id receiver_id command uuid now with
  | Except.error e => Except.error e
  | Except.ok m =>
    match m.getAttrId with
    | Except.error e => Except.error e
    | Except.ok mid =>
      let st1 := { st with
        pending_responses := st.pending_responses ++ [(mid, 0)],
        messages_sent := st.messages_sent + 1 }
      match response with
      | some r =>
        Except.ok
          ({ st1 with pending_responses :=
              st1.pending_responses.eraseP (fun q => q.1 == mid) }, some r)
      | none =>
        Except.ok
          ({ st1 with pending_responses :=
              st1.pending_responses.eraseP (fun q => q.1 == mid) }, none)

/-- C3 (code bug): every call to `send_command` raises `TypeError` while
constructing the command message (the local constructor accepts neither
`priority` nor `requires_response`), so the call never suspends for the
timeout, never returns the claimed "no response" `None`, and never even
creates a pending-response entry. -/
theorem send_command_always_raises (st : ClientState) (receiver_id : String)
    (command : List (String × String)) (priority : String) (timeout : Nat)
    (agent_id uuid : String) (now : Nat) (response : Option LocalAgentMessage) :
    sendCommand st receiver_id command priority timeout agent_id uuid now response =
      Except.error "TypeError: __init__ got an unexpected keyword argument" := rfl

/-! ### Claim C8 — registration handshake -/

/-- The frame `MCPClient._register` sends right after a successful
connect: it carries `type`, `agent_id` and `timestamp` — and nothing
else. -/
def registrationMessage (agent_id ts : String) : List (String × String) :=
  [("type", "register"), ("agent_id", agent_id), ("timestamp", ts)]

/-- `MCPClient._connect`: bounded retry loop; `outcomes` abstracts the
success of each `websockets.connect` attempt, `rc` is the entry value of
`reconnect_count`.  On the first successful attempt the client sends the
registration frame and stops; exhausting `max_reconnect_attempts` fails
the connect (`none`). -/
def clientConnect (agent_id ts : String) (maxAttempts : Nat) :
    List Bool → Nat → Option (List (List (String × String)))
  | [], _ => none
  | o :: os, rc =>
    if rc < maxAttempts then
      if o then some [registrationMessage agent_id ts]
      else clientConnect agent_id ts maxAttempts os (rc + 1)
    else none

/-- Python `dict.__setitem__` on an association list: overwrite in place
if the key exists, append otherwise. -/
def dictSet (l : List (String × String)) (k v : String) :
    List (String × String) :=
  match l.lookup k with
  | some _ => l.map (fun p => if p.1 == k then (k, v) else p)
  | none => l ++ [(k, v)]

/-- Result of `MCPServer._handle_registration`: the updated handle, the
updated `agent_types` map, and the confirmation frame sent back. -/
structure RegistrationResult where
  agent : ConnectedAgent
  agent_types : List (String × String)
  confirmation : List (String × String)
  deriving DecidableEq, Repr

/-- `MCPServer._handle_registration`: store
`message_data.get("agent_type", "unknown")` as the handle's type, mirror
it in `agent_types`, and send back a `registration_confirmed` frame
carrying the agent's id. -/
def handleRegistration (agent : ConnectedAgent)
    (agent_types : List (String × String))
    (message_data : List (String × String)) (ts : String) :
    RegistrationResult :=
  let t := (message_data.lookup "agent_type").getD "unknown"
  { agent := { agent with agent_type := t },
    agent_types := dictSet agent_types agent.agent_id t,
    confirmation := [("type", "registration_confirmed"),
      ("agent_id", agent.agent_id), ("timestamp", ts)] }

/-- C8 counterexample: the register frame the client actually sends has
no `agent_type` field at all (`_register` sends only `type`, `agent_id`,
`timestamp`), so the broker receiving it stores the default `"unknown"` —
not a declared agent type as the claim states. -/
theorem register_handshake_cex :
    (registrationMessage "a1" "t0").lookup "agent_type" = none ∧
    (handleRegistration (ConnectedAgent.init "a1" 0 0) []
      (registrationMessage "a1" "t0") "t1").agent.agent_type = "unknown" := by
  decide

/-- C8 (amended): whenever the connect loop succeeds, the client
immediately sends exactly one frame — the `register` control message;
that message carries no agent type, so the broker, handling it, stores
the default type `"unknown"` and replies with a `registration_confirmed`
acknowledgment containing the agent's id. -/
theorem register_handshake (agent_id ts : String) (maxAttempts : Nat)
    (outcomes : List Bool) (rc : Nat) (sent : List (List (String × String)))
    (h : clientConnect agent_id ts maxAttempts outcomes rc = some sent) :
    sent = [registrationMessage agent_id ts] ∧
    (registrationMessage agent_id ts).lookup "type" = some "register" ∧
    (registrationMessage agent_id ts).lookup "agent_type" = none ∧
    (∀ (agent : ConnectedAgent) (agent_types : List (String × String)) (ts2 : String),
      (handleRegistration agent agent_types (registrationMessage agent_id ts) ts2).agent.agent_type = "unknown" ∧
      (handleRegistration agent agent_types (registrationMessage agent_id ts) ts2).confirmation =
        [("type", "registration_confirmed"), ("agent_id", agent.agent_id),
         ("timestamp", ts2)]) := by
  refine ⟨?_, rfl, rfl, fun agent agent_types ts2 => ⟨rfl, rfl⟩⟩
  induction outcomes generalizing rc with
  | nil => exact Option.noConfusion h
  | cons o os ih =>
    rw [clientConnect] at h
    by_cases hrc : rc < maxAttempts
    · rw [if_pos hrc] at h
      cases o with
      | true =>
        rw [if_pos rfl] at h
        exact (Option.some.inj h).symm
      | false =>
        rw [if_neg (by simp)] at h
        exact ih _ h
    · rw [if_neg hrc] at h
      exact Option.noConfusion h

theorem register_handshake_witness :
    clientConnect "a7" "t5" 10 [false, true] 0 =
      some [registrationMessage "a7" "t5"] ∧
    ([registrationMessage "a7" "t5"] = [registrationMessage "a7" "t5"] ∧
     (registrationMessage "a7" "t5").lookup "type" = some "register" ∧
     (registrationMessage "a7" "t5").lookup "agent_type" = none ∧
     (∀ (agent : ConnectedAgent) (agent_types : List (String × String)) (ts2 : String),
       (handleRegistration agent agent_types (registrationMessage "a7" "t5") ts2).agent.agent_type = "unknown" ∧
       (handleRegistration agent agent_types (registrationMessage "a7" "t5") ts2).confirmation =
         [("type", "registration_confirmed"), ("agent_id", agent.agent_id),
          ("timestamp", ts2)])) :=
  ⟨by decide, register_handshake "a7" "t5" 10 [false, true] 0
      [registrationMessage "a7" "t5"] (by decide)⟩

/-! ### Coordinator phase machine (`orchestration/coordinator.py`) -/

/-- The `SimulationPhase` enum. -/
inductive SimulationPhase where
  | initialization
  | reconnaissance
  | initial_access
  | execution
  | persistence
  | defense_response
  | lateral_movement
  | exfiltration
  | post_incident
  | completed
  deriving DecidableEq, Repr, Fintype

/-- The `phase_order` table of `_transition_to_next_phase`. -/
def phaseOrder : List SimulationPhase :=
  [SimulationPhase.initialization, SimulationPhase.reconnaissance,
   SimulationPhase.initial_access, SimulationPhase.execution,
   SimulationPhase.persistence, SimulationPhase.defense_response,
   SimulationPhase.lateral_movement, SimulationPhase.exfiltration,
   SimulationPhase.post_incident, SimulationPhase.completed]

/-- Position of a phase in the fixed table order
(`phase_order.index(current_phase)`). -/
def phaseIdx (p : SimulationPhase) : Nat := phaseOrder.indexOf p

/-- `_transition_to_next_phase`: step to the successor in table order when
one exists; the last phase stays put. -/
def nextPhase (p : SimulationPhase) : SimulationPhase :=
  let current_index := phaseOrder.indexOf p
  if current_index < phaseOrder.length - 1 then
    phaseOrder.getD (current_index + 1) p
  else p

/-- The phase values sampled at the top of each `run_simulation` loop
iteration.  Each input boolean says whether `_should_transition_phase`
fired that iteration; the loop stops when the phase is `completed`, and a
finite input list also models the wall-clock deadline or a fail-fast
exception ending the loop early. -/
def loopTrace : List Bool → SimulationPhase → List SimulationPhase
  | [], p => [p]
  | b :: bs, p =>
    if p = SimulationPhase.completed then [p]
    else p :: loopTrace bs (if b then nextPhase p else p)

/-- A full run: the loop samples followed by `_complete_simulation`,
which unconditionally sets `phase = COMPLETED`. -/
def simTrace (inputs : List Bool) (p0 : SimulationPhase) :
    List SimulationPhase :=
  loopTrace inputs p0 ++ [SimulationPhase.completed]

/-- Number of positions where the sampled phase *becomes* `completed`
(an adjacent pair whose first element is not `completed` and whose second
is). -/
def entersCompleted : List SimulationPhase → Nat
  | a :: b :: rest =>
    (if a ≠ SimulationPhase.completed ∧ b = SimulationPhase.completed
      then 1 else 0) + entersCompleted (b :: rest)
  | _ => 0

theorem phaseIdx_le_nextPhase :
    ∀ (p : SimulationPhase), phaseIdx p ≤ phaseIdx (nextPhase p) := by decide

theorem phaseIdx_le_nine : ∀ (p : SimulationPhase), phaseIdx p ≤ 9 := by decide

theorem loopTrace_completed (bs : List Bool) :
    loopTrace bs SimulationPhase.completed = [SimulationPhase.completed] := by
  cases bs <;> simp [loopTrace]

theorem loopTrace_head (bs : List Bool) (p : SimulationPhase) :
    ∃ t, loopTrace bs p = p :: t := by
  cases bs with
  | nil => exact ⟨[], rfl⟩
  | cons b bs =>
    by_cases hp : p = SimulationPhase.completed
    · exact ⟨[], by simp [loopTrace, hp]⟩
    · exact ⟨loopTrace bs (if b then nextPhase p else p), by simp [loopTrace, hp]⟩

theorem mem_loopTrace_idx (bs : List Bool) :
    ∀ (p q : SimulationPhase), q ∈ loopTrace bs p → phaseIdx p ≤ phaseIdx q := by
  induction bs with
  | nil =>
    intro p q hq
    simp [loopTrace] at hq
    exact hq ▸ le_refl _
  | cons b bs ih =>
    intro p q hq
    by_cases hp : p = SimulationPhase.completed
    · rw [hp, loopTrace_completed] at hq
      simp at hq
      rw [hq, hp]
    · simp only [loopTrace, if_neg hp] at hq
      rcases List.mem_cons.1 hq with h1 | h1
      · exact h1 ▸ le_refl _
      · refine le_trans ?_ (ih _ q h1)
        cases b with
        | true => simpa using phaseIdx_le_nextPhase p
        | false => simp

theorem pairwise_loopTrace (bs : List Bool) :
    ∀ (p : SimulationPhase),
      List.Pairwise (fun a b => phaseIdx a ≤ phaseIdx b) (loopTrace bs p) := by
  induction bs with
  | nil => intro p; simp [loopTrace]
  | cons b bs ih =>
    intro p
    by_cases hp : p = SimulationPhase.completed
    · rw [hp, loopTrace_completed]
      simp
    · simp only [loopTrace, if_neg hp]
      rw [List.pairwise_cons]
      refine ⟨?_, ih _⟩
      intro q hq
      refine le_trans ?_ (mem_loopTrace_idx bs _ q hq)
      cases b with
      | true => simpa using phaseIdx_le_nextPhase p
      | false => simp

theorem enters_concat (bs : List Bool) :
    ∀ (p : SimulationPhase), p ≠ SimulationPhase.completed →
      entersCompleted (loopTrace bs p ++ [SimulationPhase.completed]) = 1 := by
  induction bs with
  | nil =>
    intro p hp
    simp [loopTrace, entersCompleted, hp]
  | cons b bs ih =>
    intro p hp
    simp only [loopTrace, if_neg hp]
    obtain ⟨t, ht⟩ := loopTrace_head bs (if b then nextPhase p else p)
    rw [List.cons_append, ht, List.cons_append, entersCompleted]
    by_cases hp2 : (if b then nextPhase p else p) = SimulationPhase.completed
    · rw [hp2] at ht
      have ht0 : t = [] := by
        have hlc := loopTrace_completed bs
        rw [ht] at hlc
        exact (List.cons.inj hlc).2
      rw [ht0] at ht
      rw [hp2, ht0]
      simp [entersCompleted, hp]
    · rw [if_neg (by intro hc; exact hp2 hc.2), ← List.cons_append, ← ht]
      simpa using ih _ hp2

/-! ### Claim C10 — phase monotonicity -/

/-- C10: on every run starting (as `initialize` does) in the
`initialization` phase, the sampled phase sequence is non-decreasing in
the fixed table order; it enters the terminal `completed` phase exactly
once (so, being monotone with `completed` maximal, it never changes after
reaching it); and the run ends in `completed`.  The inputs enumerate the
per-iteration outcomes of `_should_transition_phase`; list exhaustion
models the deadline or a fail-fast loop exception, after which
`_complete_simulation` still sets the phase to `completed`. -/
theorem phase_monotone_completes_once (inputs : List Bool) :
    List.Pairwise (fun a b => phaseIdx a ≤ phaseIdx b)
      (simTrace inputs SimulationPhase.initialization) ∧
    entersCompleted (simTrace inputs SimulationPhase.initialization) = 1 ∧
    (simTrace inputs SimulationPhase.initialization).getLast? =
      some SimulationPhase.completed := by
  refine ⟨?_, enters_concat inputs _ (by decide), List.getLast?_concat _⟩
  unfold simTrace
  rw [List.pairwise_append]
  refine ⟨pairwise_loopTrace inputs _, by simp, ?_⟩
  intro a _ b hb
  simp only [List.mem_singleton] at hb
  subst hb
  calc phaseIdx a ≤ 9 := phaseIdx_le_nine a
    _ = phaseIdx SimulationPhase.completed := by decide
